import Mathlib

/-!
Verification of the EXIF metadata scrubber (`meta_scrubber_v3.py`).

The development shallowly embeds the parts of the program the claims are
about:

* the mutation step of `scrub_metadata` (the `"datetime"` and `"gps"`
  branches acting on the `piexif` dictionary),
* the output-file naming and the per-process `clean_file_count` counter,
* `get_readable_exif` together with the `TAGS` / `GPSTAGS` registries,
* `compare_metadata` and `_format_value_for_display`.

Python byte strings, file paths and display strings are modelled as
`List Char` / `List Nat`; Python dictionaries keyed by integer tag IDs are
modelled as association lists with Python's overwrite-on-insert and
delete-by-key semantics.
-/

namespace MetaScrubber

/-- Python values as they occur in EXIF dictionaries and in the readable
metadata view: strings, integers, byte strings, and tuples.  Only the
constructors the scrubber's display/compare code distinguishes are
modelled (`isinstance(value, bytes)`, `isinstance(value, tuple)`, and the
`str(value)` fallback). -/
inductive PyVal
  | str : List Char → PyVal
  | int : Int → PyVal
  | bytes : List Nat → PyVal
  | tup : List PyVal → PyVal

/-- One namespace of a `piexif` EXIF dictionary: a mapping from numeric
tag ID to value, modelled as an association list. -/
def Dir : Type := List (Nat × PyVal)

/-- Python `tag in d` on a dictionary. -/
def containsKey (d : Dir) (k : Nat) : Bool :=
  d.any (fun kv => kv.1 == k)

/-- Python `del d[tag]` on a dictionary: the entry with that key is
removed. -/
def eraseKey (d : Dir) (k : Nat) : Dir :=
  d.filter (fun kv => kv.1 != k)

/-- The guarded deletion `if tag in d: del d[tag]` from `scrub_metadata`. -/
def delIfPresent (d : Dir) (k : Nat) : Dir :=
  if containsKey d k then eraseKey d k else d

/-- The five IFD namespaces of the `piexif` dictionary
`{'0th': …, 'Exif': …, 'GPS': …, '1st': …, 'Interop': …}` produced by
`piexif.load` (or the empty default when the image has no EXIF block). -/
structure ExifDocument where
  zeroth : Dir
  exif : Dir
  gps : Dir
  firstIFD : Dir
  interop : Dir

/-- `[piexif.ImageIFD.DateTime, piexif.ExifIFD.DateTimeOriginal,
piexif.ExifIFD.DateTimeDigitized]` = `[306, 36867, 36868]`. -/
def date_time_tags : List Nat := [306, 36867, 36868]

/-- The `"datetime"` branch of `scrub_metadata`: for each of the three
date/time tags, delete it from the `'0th'` namespace if present and from
the `'Exif'` namespace if present. -/
def removeDateTime (doc : ExifDocument) : ExifDocument :=
  date_time_tags.foldl
    (fun d tag =>
      { d with zeroth := delIfPresent d.zeroth tag, exif := delIfPresent d.exif tag })
    doc

/-- The `"gps"` branch of `scrub_metadata`: `exif_dict['GPS'] = {}`. -/
def removeGps (doc : ExifDocument) : ExifDocument :=
  { doc with gps := [] }

/-! ### Directory-level lemmas -/

theorem delIfPresent_eq_eraseKey (d : Dir) (k : Nat) :
    delIfPresent d k = eraseKey d k := by
  unfold delIfPresent
  by_cases h : containsKey d k
  · simp [h]
  · simp only [h, if_neg, Bool.false_eq_true, not_false_eq_true, if_false]
    unfold containsKey at h
    unfold eraseKey
    symm
    rw [List.filter_eq_self]
    intro kv hkv
    simp only [List.any_eq_true, not_exists] at h
    have := h kv
    simp only [hkv, true_and, bne_iff_ne, ne_eq] at *
    intro hek
    exact (this (by simpa using hek))

/-- Keeps only the entries whose tag ID is none of the three date/time
tags; proof-side normal form of the `"datetime"` deletion loop. -/
def notDT (kv : Nat × PyVal) : Bool :=
  kv.1 != 36868 && kv.1 != 36867 && kv.1 != 306

theorem notDT_eq_true_iff (kv : Nat × PyVal) :
    notDT kv = true ↔ kv.1 ≠ 36868 ∧ kv.1 ≠ 36867 ∧ kv.1 ≠ 306 := by
  simp [notDT, and_assoc]

theorem erase_erase_erase_eq_filter (d : Dir) :
    eraseKey (eraseKey (eraseKey d 306) 36867) 36868 = d.filter notDT := by
  unfold eraseKey notDT
  rw [List.filter_filter, List.filter_filter]

theorem removeDateTime_eq_filter (doc : ExifDocument) :
    removeDateTime doc =
      { doc with zeroth := doc.zeroth.filter notDT, exif := doc.exif.filter notDT } := by
  unfold removeDateTime date_time_tags
  simp only [List.foldl_cons, List.foldl_nil, delIfPresent_eq_eraseKey]
  rw [← erase_erase_erase_eq_filter, ← erase_erase_erase_eq_filter]

theorem contains_filter_notDT_of_hit (d : Dir) (k : Nat)
    (hk : k = 306 ∨ k = 36867 ∨ k = 36868) :
    containsKey (d.filter notDT) k = false := by
  apply Bool.eq_false_iff.mpr
  intro hc
  unfold containsKey at hc
  rw [List.any_eq_true] at hc
  obtain ⟨kv, hmem, hkk⟩ := hc
  obtain ⟨hd, hnd⟩ := List.mem_filter.mp hmem
  rw [notDT_eq_true_iff] at hnd
  rw [beq_iff_eq] at hkk
  rcases hk with h | h | h <;> subst h <;> omega

theorem filter_notDT_eq_self_of_absent (d : Dir)
    (h306 : containsKey d 306 = false) (h367 : containsKey d 36867 = false)
    (h368 : containsKey d 36868 = false) :
    d.filter notDT = d := by
  rw [List.filter_eq_self]
  intro kv hkv
  simp only [containsKey, List.any_eq_true, not_exists, not_and, beq_iff_eq,
    Bool.eq_false_iff, ne_eq] at h306 h367 h368
  push_neg at h306 h367 h368
  rw [notDT_eq_true_iff]
  exact ⟨h368 kv hkv, h367 kv hkv, h306 kv hkv⟩

/-! ### Claims about the mutation operations -/

/-- C1: `apply(D, RemoveGps)` replaces the GPS namespace with an empty
directory — every GPS tag is gone, whatever its ID — and leaves the 0th,
1st, Exif and Interop namespaces unchanged. -/
theorem removeGps_clears_gps_and_preserves_rest (doc : ExifDocument) :
    (removeGps doc).gps = []
      ∧ (∀ t : Nat, containsKey (removeGps doc).gps t = false)
      ∧ (removeGps doc).zeroth = doc.zeroth
      ∧ (removeGps doc).firstIFD = doc.firstIFD
      ∧ (removeGps doc).exif = doc.exif
      ∧ (removeGps doc).interop = doc.interop := by
  refine ⟨rfl, ?_, rfl, rfl, rfl, rfl⟩
  intro t
  simp [removeGps, containsKey]

/-- C2: `RemoveDateTime` deletes `DateTime` (306) from the 0th namespace
and `DateTimeOriginal` (36867) and `DateTimeDigitized` (36868) from the
Exif namespace; deletion is delete-if-present, so a document carrying none
of the three tags passes through unchanged (absence raises no error). -/
theorem removeDateTime_deletes_claimed_tags (doc : ExifDocument) :
    containsKey (removeDateTime doc).zeroth 306 = false
      ∧ containsKey (removeDateTime doc).exif 36867 = false
      ∧ containsKey (removeDateTime doc).exif 36868 = false
      ∧ ((∀ t ∈ date_time_tags,
            containsKey doc.zeroth t = false ∧ containsKey doc.exif t = false) →
          removeDateTime doc = doc) := by
  rw [removeDateTime_eq_filter]
  refine ⟨contains_filter_notDT_of_hit _ _ (Or.inl rfl),
    contains_filter_notDT_of_hit _ _ (Or.inr (Or.inl rfl)),
    contains_filter_notDT_of_hit _ _ (Or.inr (Or.inr rfl)), ?_⟩
  intro habs
  cases doc with
  | mk z e g f i =>
    have hz := filter_notDT_eq_self_of_absent z
      (habs 306 (by simp [date_time_tags])).1
      (habs 36867 (by simp [date_time_tags])).1
      (habs 36868 (by simp [date_time_tags])).1
    have he := filter_notDT_eq_self_of_absent e
      (habs 306 (by simp [date_time_tags])).2
      (habs 36867 (by simp [date_time_tags])).2
      (habs 36868 (by simp [date_time_tags])).2
    simp only [ExifDocument.mk.injEq]
    exact ⟨hz, he, trivial, trivial, trivial⟩

/-- Witness for C2: on a document with no date/time tags anywhere,
`RemoveDateTime` is the identity. -/
theorem removeDateTime_deletes_claimed_tags_witness :
    removeDateTime ⟨[(256, PyVal.int 640)], [], [], [], []⟩ =
      ⟨[(256, PyVal.int 640)], [], [], [], []⟩ :=
  (removeDateTime_deletes_claimed_tags ⟨[(256, PyVal.int 640)], [], [], [], []⟩).2.2.2
    (by intro t ht; refine ⟨?_, rfl⟩; fin_cases ht <;> rfl)

/-- C3: `RemoveDateTime` is idempotent — applying it twice yields the same
document as applying it once. -/
theorem removeDateTime_idempotent (doc : ExifDocument) :
    removeDateTime (removeDateTime doc) = removeDateTime doc := by
  rw [removeDateTime_eq_filter, removeDateTime_eq_filter doc]
  have h : ∀ d : Dir, (d.filter notDT).filter notDT = d.filter notDT := by
    intro d
    rw [List.filter_eq_self]
    intro kv hkv
    exact List.of_mem_filter hkv
  simp [h]

/-- C10: the deletion loop runs every date/time tag against both the 0th
and the Exif namespace, so after `RemoveDateTime` none of 306, 36867,
36868 is present in either namespace. -/
theorem removeDateTime_clears_both_namespaces (doc : ExifDocument) :
    containsKey (removeDateTime doc).zeroth 306 = false
      ∧ containsKey (removeDateTime doc).zeroth 36867 = false
      ∧ containsKey (removeDateTime doc).zeroth 36868 = false
      ∧ containsKey (removeDateTime doc).exif 306 = false
      ∧ containsKey (removeDateTime doc).exif 36867 = false
      ∧ containsKey (removeDateTime doc).exif 36868 = false := by
  rw [removeDateTime_eq_filter]
  exact ⟨contains_filter_notDT_of_hit _ _ (Or.inl rfl),
    contains_filter_notDT_of_hit _ _ (Or.inr (Or.inl rfl)),
    contains_filter_notDT_of_hit _ _ (Or.inr (Or.inr rfl)),
    contains_filter_notDT_of_hit _ _ (Or.inl rfl),
    contains_filter_notDT_of_hit _ _ (Or.inr (Or.inl rfl)),
    contains_filter_notDT_of_hit _ _ (Or.inr (Or.inr rfl))⟩

/-! ### File paths and output naming -/

/-- Index of the last occurrence of `c` in `p` (Python `str.rfind`),
`none` when the character is absent. -/
def lastIndexOf : List Char → Char → Option Nat
  | [], _ => none
  | x :: xs, c =>
    match lastIndexOf xs c with
    | some i => some (i + 1)
    | none => if x = c then some 0 else none

theorem lastIndexOf_get (p : List Char) (c : Char) (i : Nat)
    (h : lastIndexOf p c = some i) : p.get? i = some c := by
  induction p generalizing i with
  | nil => simp [lastIndexOf] at h
  | cons x xs ih =>
    unfold lastIndexOf at h
    cases hx : lastIndexOf xs c with
    | some j =>
      rw [hx] at h
      injection h with h
      subst h
      simpa using ih j hx
    | none =>
      rw [hx] at h
      by_cases hxc : x = c
      · rw [if_pos hxc] at h
        injection h with h
        subst h
        simpa using hxc
      · rw [if_neg hxc] at h
        exact absurd h (by simp)

/-- `os.path.splitext` restricted to POSIX separators, as CPython
implements it: split at the last `'.'` that lies after the last `'/'`,
unless every character between that separator and the dot is itself a dot
(leading-dot file names have no extension). -/
def splitext (p : List Char) : List Char × List Char :=
  match lastIndexOf p '.' with
  | none => (p, [])
  | some di =>
    let fnStart : Nat :=
      match lastIndexOf p '/' with
      | none => 0
      | some si => si + 1
    if fnStart > di then (p, [])
    else if ((p.drop fnStart).take (di - fnStart)).all (fun ch => ch = '.') then (p, [])
    else (p.take di, p.drop di)

theorem splitext_append (p : List Char) :
    (splitext p).1 ++ (splitext p).2 = p := by
  unfold splitext
  cases h : lastIndexOf p '.' with
  | none => simp
  | some di =>
    by_cases h1 : (match lastIndexOf p '/' with | none => 0 | some si => si + 1) > di
    · simp [h1]
    · by_cases h2 :
        ((p.drop (match lastIndexOf p '/' with | none => 0 | some si => si + 1)).take
          (di - (match lastIndexOf p '/' with | none => 0 | some si => si + 1))).all
          (fun ch => ch = '.')
      · simp [h1, h2]
      · simp [h1, h2]

theorem splitext_snd_head (p : List Char) :
    (splitext p).2 = [] ∨ (splitext p).2.head? = some '.' := by
  unfold splitext
  cases h : lastIndexOf p '.' with
  | none => simp
  | some di =>
    by_cases h1 : (match lastIndexOf p '/' with | none => 0 | some si => si + 1) > di
    · simp [h1]
    · by_cases h2 :
        ((p.drop (match lastIndexOf p '/' with | none => 0 | some si => si + 1)).take
          (di - (match lastIndexOf p '/' with | none => 0 | some si => si + 1))).all
          (fun ch => ch = '.')
      · simp [h1, h2]
      · right
        simp only [if_neg h1, if_neg h2, List.head?_drop]
        have := lastIndexOf_get p '.' di h
        simpa using this

/-- Decimal rendering of a natural number, as Python's `str`/f-string
produces inside `f"{base_name}_clean_{self.clean_file_count}.jpg"`.
Structurally recursive on a fuel argument so it evaluates by `rfl`. -/
def natToCharsAux : Nat → Nat → List Char → List Char
  | 0, _, acc => acc
  | fuel + 1, n, acc =>
    if n = 0 then acc
    else natToCharsAux fuel (n / 10) (Char.ofNat (n % 10 + 48) :: acc)

/-- Python `str(n)` for a natural number. -/
def natToChars (n : Nat) : List Char :=
  if n = 0 then ['0'] else natToCharsAux n n []

/-- The output path `f"{os.path.splitext(self.file_path)[0]}_clean_{count}.jpg"`
built by `scrub_metadata`. -/
def new_file_name (file_path : List Char) (count : Nat) : List Char :=
  (splitext file_path).1 ++ ("_clean_".toList ++ (natToChars count ++ ".jpg".toList))

/-- The mutable per-process state of `MetadataScrubber` that
`scrub_metadata` touches: `self.clean_file_count` (initially 0) and
`self.latest_clean_file` (initially `None`). -/
structure ScrubState where
  clean_file_count : Nat
  latest_clean_file : Option (List Char)

/-- Where a run of `scrub_metadata` raises, if anywhere.  The whole body
runs inside one `try`, so an exception at any point is caught by the
trailing `except` and the method returns normally:
`openFail` = `Image.open` raises, `loadFail` = `piexif.load` raises,
`dumpFail` = `piexif.dump` raises, `saveFail` = `img.save` raises. -/
inductive FailPoint
  | success
  | openFail
  | loadFail
  | dumpFail
  | saveFail

/-- The state effects of one `scrub_metadata` call on a source path:
`self.clean_file_count += 1` happens right before the output name is
built, which is before `piexif.dump` and `img.save` run;
`self.latest_clean_file` is assigned only after `img.save` returns.
Returns the new state and the output path when a file was written. -/
def scrub_metadata_run (st : ScrubState) (file_path : List Char) (fp : FailPoint) :
    ScrubState × Option (List Char) :=
  match fp with
  | .openFail => (st, none)
  | .loadFail => (st, none)
  | .dumpFail => ({ st with clean_file_count := st.clean_file_count + 1 }, none)
  | .saveFail => ({ st with clean_file_count := st.clean_file_count + 1 }, none)
  | .success =>
    let new_file := new_file_name file_path (st.clean_file_count + 1)
    (⟨st.clean_file_count + 1, some new_file⟩, some new_file)

/-! ### Claims about naming and the counter -/

/-- Counterexample to C4: starting from the initial state, a scrub call
whose `img.save` raises writes no file — the call fails — yet
`self.clean_file_count` has already been incremented from 0 to 1, because
the increment at line 148 precedes `piexif.dump`/`img.save`.  This
contradicts "incremented … never on a failed [call]". -/
theorem counter_incremented_on_failed_call :
    (scrub_metadata_run ⟨0, none⟩ "photo.jpg".toList .saveFail).2 = none
      ∧ (scrub_metadata_run ⟨0, none⟩ "photo.jpg".toList .saveFail).1.clean_file_count ≠
          (⟨0, none⟩ : ScrubState).clean_file_count := by
  exact ⟨rfl, by decide⟩

/-- C4 as amended: the output path of every scrub call is the source
stem followed by `_clean_<N>.jpg`; the per-process counter is incremented
exactly once per call that gets as far as building the output name —
i.e. on every successful call, and also on calls that fail only later in
`piexif.dump`/`img.save` — and not on calls that fail before that point;
two successive successful calls from the initial state produce
`…_clean_1.jpg` then `…_clean_2.jpg`, which are distinct paths. -/
theorem scrub_naming_and_counter (st : ScrubState) (p : List Char) :
    ((scrub_metadata_run st p .success).1.clean_file_count = st.clean_file_count + 1
      ∧ (scrub_metadata_run st p .success).2 =
          some (new_file_name p (st.clean_file_count + 1)))
    ∧ ((scrub_metadata_run st p .openFail).1.clean_file_count = st.clean_file_count
      ∧ (scrub_metadata_run st p .loadFail).1.clean_file_count = st.clean_file_count
      ∧ (scrub_metadata_run st p .openFail).2 = none
      ∧ (scrub_metadata_run st p .loadFail).2 = none)
    ∧ ((scrub_metadata_run st p .dumpFail).1.clean_file_count = st.clean_file_count + 1
      ∧ (scrub_metadata_run st p .saveFail).1.clean_file_count = st.clean_file_count + 1
      ∧ (scrub_metadata_run st p .dumpFail).2 = none
      ∧ (scrub_metadata_run st p .saveFail).2 = none)
    ∧ ((scrub_metadata_run ⟨0, none⟩ p .success).2 =
          some ((splitext p).1 ++ "_clean_1.jpg".toList)
      ∧ (scrub_metadata_run (scrub_metadata_run ⟨0, none⟩ p .success).1 p .success).2 =
          some ((splitext p).1 ++ "_clean_2.jpg".toList)
      ∧ (scrub_metadata_run ⟨0, none⟩ p .success).2 ≠
          (scrub_metadata_run (scrub_metadata_run ⟨0, none⟩ p .success).1 p .success).2) := by
  have hn1 : "_clean_".toList ++ (natToChars 1 ++ ".jpg".toList) = "_clean_1.jpg".toList := by
    decide
  have hn2 : "_clean_".toList ++ (natToChars 2 ++ ".jpg".toList) = "_clean_2.jpg".toList := by
    decide
  have e1 : (scrub_metadata_run ⟨0, none⟩ p .success).2 =
      some ((splitext p).1 ++ "_clean_1.jpg".toList) := by
    simp only [scrub_metadata_run, new_file_name]
    rw [hn1]
  have e2 : (scrub_metadata_run (scrub_metadata_run ⟨0, none⟩ p .success).1 p .success).2 =
      some ((splitext p).1 ++ "_clean_2.jpg".toList) := by
    simp only [scrub_metadata_run, new_file_name]
    rw [hn2]
  refine ⟨⟨rfl, rfl⟩, ⟨rfl, rfl, rfl, rfl⟩, ⟨rfl, rfl, rfl, rfl⟩, e1, e2, ?_⟩
  intro h
  rw [e1, e2, Option.some_inj] at h
  have h2 := (List.append_right_inj ((splitext p).1)).mp h
  exact absurd h2 (by decide)

/-- C8: whenever a scrub run writes an output file for a source path
ending in `.jpg` or `.jpeg` (case-insensitively, as `get_file_path`
admits), the output path differs from the source path, so the source
file is never overwritten. -/
theorem output_path_never_source (st : ScrubState) (p : List Char) (fp : FailPoint)
    (out : List Char)
    (_hjpg : (".jpg".toList.isSuffixOf (p.map Char.toLower)
              || ".jpeg".toList.isSuffixOf (p.map Char.toLower)) = true)
    (hout : (scrub_metadata_run st p fp).2 = some out) :
    out ≠ p := by
  have hfp : fp = .success := by
    cases fp <;> first | rfl | exact absurd hout (by simp [scrub_metadata_run])
  subst hfp
  have hname : out = new_file_name p (st.clean_file_count + 1) := by
    simp only [scrub_metadata_run, Option.some_inj] at hout
    exact hout.symm
  subst hname
  intro heq
  have hsplit := splitext_append p
  have heq2 : (splitext p).1 ++
      ("_clean_".toList ++ (natToChars (st.clean_file_count + 1) ++ ".jpg".toList)) =
      (splitext p).1 ++ (splitext p).2 := heq.trans hsplit.symm
  have htail := (List.append_right_inj ((splitext p).1)).mp heq2
  rcases splitext_snd_head p with hnil | hdot
  · rw [hnil] at htail
    exact absurd htail (by simp)
  · have : ('_' : Char) = '.' := by
      have h1 : ("_clean_".toList ++ (natToChars (st.clean_file_count + 1) ++
          ".jpg".toList)).head? = some '_' := rfl
      rw [htail, hdot] at h1
      exact (Option.some_inj.mp h1).symm
    exact absurd this (by decide)

/-- Witness for C8: the first scrub run on `photo.jpg` writes
`photo_clean_1.jpg`, which is not the source path. -/
theorem output_path_never_source_witness :
    "photo_clean_1.jpg".toList ≠ "photo.jpg".toList :=
  output_path_never_source ⟨0, none⟩ "photo.jpg".toList .success
    "photo_clean_1.jpg".toList (by decide) (by rfl)

/-! ### Tag registries and the readable projection -/

/-- A key of the `readable_exif` Python dictionary: either a resolved
name string or, for an unresolved main-table ID, the raw numeric ID
itself (`TAGS.get(tag_id, tag_id)` returns the `int` unchanged, and
Python dictionaries mix `int` and `str` keys). -/
inductive ExifKey
  | name : List Char → ExifKey
  | raw : Nat → ExifKey
deriving DecidableEq

/-- The relevant fragment of `PIL.ExifTags.TAGS` (main EXIF/TIFF tag
table).  The table itself lives in the PIL dependency, not in this
repository; only the entries the scrubber's behaviour depends on are
reproduced. -/
def TAGS_lookup : Nat → Option (List Char)
  | 1 => some "InteropIndex".toList
  | 256 => some "ImageWidth".toList
  | 271 => some "Make".toList
  | 272 => some "Model".toList
  | 306 => some "DateTime".toList
  | 34853 => some "GPSInfo".toList
  | 36867 => some "DateTimeOriginal".toList
  | 36868 => some "DateTimeDigitized".toList
  | _ => none

/-- The relevant fragment of `PIL.ExifTags.GPSTAGS` (GPS sub-IFD tag
table). -/
def GPSTAGS_lookup : Nat → Option (List Char)
  | 0 => some "GPSVersionID".toList
  | 1 => some "GPSLatitudeRef".toList
  | 2 => some "GPSLatitude".toList
  | 3 => some "GPSLongitudeRef".toList
  | 4 => some "GPSLongitude".toList
  | _ => none

/-- `TAGS.get(tag_id, tag_id)` in `get_readable_exif`. -/
def resolve_main (tid : Nat) : ExifKey :=
  match TAGS_lookup tid with
  | some n => .name n
  | none => .raw tid

/-- `GPSTAGS.get(gps_tag, gps_tag)` in `get_readable_exif`. -/
def resolve_gps (gt : Nat) : ExifKey :=
  match GPSTAGS_lookup gt with
  | some n => .name n
  | none => .raw gt

/-- How a key renders inside the f-string `f'GPS {sub_tag}'`: a name
stays itself, an unresolved numeric ID is stringified. -/
def keyStr : ExifKey → List Char
  | .name s => s
  | .raw n => natToChars n

/-- The namespaced key `f'GPS {sub_tag}'` given to a GPS sub-entry. -/
def gps_sub_key (gt : Nat) : ExifKey :=
  .name ("GPS ".toList ++ keyStr (resolve_gps gt))

/-- A value of the raw EXIF mapping handed to `get_readable_exif`: an
ordinary scalar value, or — under the `GPSInfo` tag — the nested GPS
dictionary.  A scalar sitting under the `GPSInfo` tag (e.g. an unparsed
integer offset) is not iterable, so processing it raises. -/
inductive EntryVal
  | scalar : PyVal → EntryVal
  | gpsDict : List (Nat × PyVal) → EntryVal

/-- The body of `get_readable_exif`'s per-entry `try` block: resolve the
tag name; if it is `GPSInfo`, expand the nested dictionary into
`GPS `-prefixed entries; otherwise emit the entry under its own key.
Iterating a non-dictionary `GPSInfo` value raises (`.error`), which the
per-entry `except Exception: continue` turns into a skip. -/
def processEntry : Nat × EntryVal → Except Unit (List (ExifKey × EntryVal))
  | (tid, data) =>
    if resolve_main tid = .name "GPSInfo".toList then
      match data with
      | .gpsDict g => .ok (g.map (fun gv => (gps_sub_key gv.1, EntryVal.scalar gv.2)))
      | .scalar _ => .error ()
    else
      .ok [(resolve_main tid, data)]

/-- Python dictionary assignment `d[k] = v`: overwrite in place when the
key exists, append otherwise. -/
def dictInsert (d : List (ExifKey × EntryVal)) (k : ExifKey) (v : EntryVal) :
    List (ExifKey × EntryVal) :=
  if d.any (fun kv => kv.1 = k) then
    d.map (fun kv => if kv.1 = k then (k, v) else kv)
  else
    d ++ [(k, v)]

/-- `get_readable_exif`: fold over the raw EXIF entries, writing each
successfully processed entry's key/value pairs into the readable
dictionary and skipping (`continue`) any entry whose processing raised. -/
def get_readable_exif (ed : List (Nat × EntryVal)) : List (ExifKey × EntryVal) :=
  ed.foldl
    (fun acc e =>
      match processEntry e with
      | .ok kvs => kvs.foldl (fun a kv => dictInsert a kv.1 kv.2) acc
      | .error _ => acc)
    []

/-- Python `d.get(k)` on the readable dictionary. -/
def dictGet (d : List (ExifKey × EntryVal)) (k : ExifKey) : Option EntryVal :=
  (d.find? (fun kv => kv.1 = k)).map (fun kv => kv.2)

/-- C6: producing the readable projection is total, and an entry whose
conversion raises is dropped without disturbing the entries before or
after it — the readable view of a list containing a malformed entry is
exactly the readable view of the list without it. -/
theorem malformed_entry_skipped (xs ys : List (Nat × EntryVal)) (e : Nat × EntryVal)
    (he : processEntry e = .error ()) :
    get_readable_exif (xs ++ e :: ys) = get_readable_exif (xs ++ ys) := by
  unfold get_readable_exif
  rw [List.foldl_append, List.foldl_append, List.foldl_cons, he]

/-- Witness for C6: a `GPSInfo` entry holding an unparsed integer offset
raises while being expanded; it is skipped, and the `ImageWidth` entry
after it is still processed. -/
theorem malformed_entry_skipped_witness :
    get_readable_exif ([] ++ (34853, EntryVal.scalar (PyVal.int 914)) ::
        [(256, EntryVal.scalar (PyVal.int 640))]) =
      get_readable_exif ([] ++ [(256, EntryVal.scalar (PyVal.int 640))]) :=
  malformed_entry_skipped [] [(256, EntryVal.scalar (PyVal.int 640))]
    (34853, EntryVal.scalar (PyVal.int 914)) rfl

/-- Python `k in d` on the readable dictionary. -/
def containsKeyE (d : List (ExifKey × EntryVal)) (k : ExifKey) : Bool :=
  d.any (fun kv => kv.1 = k)

theorem containsKeyE_dictInsert_self (d : List (ExifKey × EntryVal)) (k : ExifKey)
    (v : EntryVal) : containsKeyE (dictInsert d k v) k = true := by
  unfold dictInsert
  by_cases hcond : (d.any fun kv => decide (kv.1 = k)) = true
  · rw [if_pos hcond]
    unfold containsKeyE
    rw [List.any_eq_true]
    obtain ⟨kv, hmem, hkv⟩ := List.any_eq_true.mp hcond
    refine ⟨(k, v), ?_, by simp⟩
    have hk : kv.1 = k := of_decide_eq_true hkv
    exact List.mem_map.mpr ⟨kv, hmem, by simp [hk]⟩
  · rw [if_neg hcond]
    unfold containsKeyE
    simp

theorem containsKeyE_dictInsert_mono (d : List (ExifKey × EntryVal)) (k k' : ExifKey)
    (v : EntryVal) (h : containsKeyE d k = true) :
    containsKeyE (dictInsert d k' v) k = true := by
  unfold dictInsert
  by_cases hcond : (d.any fun kv => decide (kv.1 = k')) = true
  · rw [if_pos hcond]
    unfold containsKeyE at h ⊢
    rw [List.any_eq_true] at h ⊢
    obtain ⟨kv, hmem, hkv⟩ := h
    refine ⟨if kv.1 = k' then (k', v) else kv, List.mem_map_of_mem _ hmem, ?_⟩
    have hkk : kv.1 = k := of_decide_eq_true hkv
    by_cases hk' : kv.1 = k'
    · rw [if_pos hk']
      simp only [decide_eq_true_eq]
      rw [← hk']
      exact hkk
    · rw [if_neg hk']
      exact hkv
  · rw [if_neg hcond]
    unfold containsKeyE at h ⊢
    rw [List.any_append]
    simp [h]

theorem inner_foldl_contains_of_contains (kvs : List (ExifKey × EntryVal))
    (acc : List (ExifKey × EntryVal)) (k : ExifKey)
    (h : containsKeyE acc k = true) :
    containsKeyE (kvs.foldl (fun a kv => dictInsert a kv.1 kv.2) acc) k = true := by
  induction kvs generalizing acc with
  | nil => simpa using h
  | cons kv rest ih =>
    rw [List.foldl_cons]
    exact ih _ (containsKeyE_dictInsert_mono acc k kv.1 kv.2 h)

theorem inner_foldl_contains_of_mem (kvs : List (ExifKey × EntryVal))
    (acc : List (ExifKey × EntryVal)) (k : ExifKey) (u : EntryVal)
    (h : (k, u) ∈ kvs) :
    containsKeyE (kvs.foldl (fun a kv => dictInsert a kv.1 kv.2) acc) k = true := by
  induction kvs generalizing acc with
  | nil => exact absurd h (by simp)
  | cons kv rest ih =>
    rw [List.foldl_cons]
    rcases List.mem_cons.mp h with heq | hmem
    · apply inner_foldl_contains_of_contains
      rw [← heq]
      exact containsKeyE_dictInsert_self acc k u
    · exact ih _ hmem

theorem readable_foldl_preserves_key (ed : List (Nat × EntryVal))
    (acc : List (ExifKey × EntryVal)) (k : ExifKey)
    (h : containsKeyE acc k = true) :
    containsKeyE (ed.foldl
      (fun acc e =>
        match processEntry e with
        | .ok kvs => kvs.foldl (fun a kv => dictInsert a kv.1 kv.2) acc
        | .error _ => acc)
      acc) k = true := by
  induction ed generalizing acc with
  | nil => simpa using h
  | cons e rest ih =>
    rw [List.foldl_cons]
    apply ih
    cases hp : processEntry e with
    | ok kvs =>
      simp only [hp]
      exact inner_foldl_contains_of_contains kvs acc k h
    | error u =>
      simpa only [hp] using h

/-- Any entry of the raw mapping whose processing succeeds contributes
every one of its keys to the readable dictionary, wherever the entry
sits and whatever else the mapping holds: keys are never removed. -/
theorem readable_contains_of_mem_processed (ed : List (Nat × EntryVal))
    (e : Nat × EntryVal) (kvs : List (ExifKey × EntryVal)) (k : ExifKey) (u : EntryVal)
    (he : e ∈ ed) (hp : processEntry e = .ok kvs) (hk : (k, u) ∈ kvs) :
    containsKeyE (get_readable_exif ed) k = true := by
  obtain ⟨xs, ys, rfl⟩ := List.append_of_mem he
  unfold get_readable_exif
  rw [List.foldl_append, List.foldl_cons]
  apply readable_foldl_preserves_key
  simp only [hp]
  exact inner_foldl_contains_of_mem kvs _ k u hk

theorem TAGS_lookup_GPSInfo_imp (t : Nat)
    (h : TAGS_lookup t = some "GPSInfo".toList) : t = 34853 := by
  unfold TAGS_lookup at h
  split at h
  all_goals first
    | rfl
    | exact absurd (Option.some.inj h) (by decide)
    | exact Option.noConfusion h

theorem resolve_main_ne_GPSInfo (t : Nat) (h : t ≠ 34853) :
    resolve_main t ≠ ExifKey.name "GPSInfo".toList := by
  intro hc
  unfold resolve_main at hc
  cases hT : TAGS_lookup t with
  | none => rw [hT] at hc; exact ExifKey.noConfusion hc
  | some n =>
    rw [hT] at hc
    injection hc with hc
    subst hc
    exact h (TAGS_lookup_GPSInfo_imp t hT)

/-- No main-table key ever carries the `"GPS "` prefix: an unresolved ID
is an `int` key, and none of the registered names has a space as its
fourth character. -/
theorem resolve_main_ne_gps_prefixed (t : Nat) (x : List Char) :
    resolve_main t ≠ ExifKey.name ("GPS ".toList ++ x) := by
  intro hc
  unfold resolve_main at hc
  cases hT : TAGS_lookup t with
  | none =>
    rw [hT] at hc
    exact ExifKey.noConfusion hc
  | some n =>
    rw [hT] at hc
    injection hc with hc
    have h4 : n.get? 3 = some ' ' := by rw [hc]; rfl
    unfold TAGS_lookup at hT
    split at hT
    all_goals first
      | exact Option.noConfusion hT
      | (have hXn := Option.some.inj hT
         subst hXn
         exact absurd h4 (by decide))

theorem processEntry_not_gpsinfo (t : Nat) (v : EntryVal)
    (h : resolve_main t ≠ ExifKey.name "GPSInfo".toList) :
    processEntry (t, v) = .ok [(resolve_main t, v)] := by
  simp only [processEntry]
  rw [if_neg h]

theorem processEntry_gpsinfo (g : List (Nat × PyVal)) :
    processEntry (34853, EntryVal.gpsDict g) =
      .ok (g.map (fun gv => (gps_sub_key gv.1, EntryVal.scalar gv.2))) := rfl

theorem find?_map_overwrite (d : List (ExifKey × EntryVal)) (k k' : ExifKey)
    (v : EntryVal) (hne : k ≠ k') :
    (d.map (fun kv => if kv.1 = k' then (k', v) else kv)).find?
        (fun kv => decide (kv.1 = k)) =
      d.find? (fun kv => decide (kv.1 = k)) := by
  induction d with
  | nil => rfl
  | cons kv rest ih =>
    rw [List.map_cons]
    by_cases hk : kv.1 = k
    · have hk' : ¬ kv.1 = k' := by rw [hk]; exact hne
      rw [if_neg hk']
      rw [List.find?_cons_of_pos _ (by simpa using hk), List.find?_cons_of_pos _ (by simpa using hk)]
    · by_cases hk' : kv.1 = k'
      · rw [if_pos hk']
        rw [List.find?_cons_of_neg _ (by simpa using Ne.symm hne),
          List.find?_cons_of_neg _ (by simpa using hk)]
        exact ih
      · rw [if_neg hk']
        rw [List.find?_cons_of_neg _ (by simpa using hk),
          List.find?_cons_of_neg _ (by simpa using hk)]
        exact ih

theorem find?_append_single (d : List (ExifKey × EntryVal)) (k k' : ExifKey)
    (v : EntryVal) (hne : k ≠ k') :
    (d ++ [(k', v)]).find? (fun kv => decide (kv.1 = k)) =
      d.find? (fun kv => decide (kv.1 = k)) := by
  induction d with
  | nil =>
    rw [List.nil_append]
    rw [List.find?_cons_of_neg _ (by simpa using Ne.symm hne)]
  | cons kv rest ih =>
    rw [List.cons_append]
    by_cases hk : kv.1 = k
    · rw [List.find?_cons_of_pos _ (by simpa using hk),
        List.find?_cons_of_pos _ (by simpa using hk)]
    · rw [List.find?_cons_of_neg _ (by simpa using hk),
        List.find?_cons_of_neg _ (by simpa using hk)]
      exact ih

/-- Writing a dictionary entry under one key never changes the binding
of a different key. -/
theorem dictGet_dictInsert_ne (d : List (ExifKey × EntryVal)) (k k' : ExifKey)
    (v : EntryVal) (hne : k ≠ k') :
    dictGet (dictInsert d k' v) k = dictGet d k := by
  unfold dictInsert
  by_cases hcond : (d.any fun kv => decide (kv.1 = k')) = true
  · rw [if_pos hcond]
    unfold dictGet
    rw [find?_map_overwrite d k k' v hne]
  · rw [if_neg hcond]
    unfold dictGet
    rw [find?_append_single d k k' v hne]

/-- C7: for every raw EXIF mapping in which the main IFD defines a tag
ID `t` (other than 34853, whose main entry is the GPS pointer itself)
and the GPS sub-IFD defines the same numeric `t`, the readable
projection contains two distinct entries: the GPS one under a
`"GPS "`-prefixed key and the main one under its own, never
`"GPS "`-prefixed, key — and since the keys differ, writing either entry
never overwrites the other. -/
theorem gps_namespace_disjoint (ed : List (Nat × EntryVal)) (t : Nat) (v : EntryVal)
    (g : List (Nat × PyVal)) (w : PyVal)
    (ht : t ≠ 34853)
    (hmain : (t, v) ∈ ed)
    (hgps : (34853, EntryVal.gpsDict g) ∈ ed)
    (hsub : (t, w) ∈ g) :
    resolve_main t ≠ gps_sub_key t
    ∧ (∃ rest, gps_sub_key t = ExifKey.name ("GPS ".toList ++ rest))
    ∧ (∀ rest, resolve_main t ≠ ExifKey.name ("GPS ".toList ++ rest))
    ∧ containsKeyE (get_readable_exif ed) (resolve_main t) = true
    ∧ containsKeyE (get_readable_exif ed) (gps_sub_key t) = true
    ∧ (∀ (d : List (ExifKey × EntryVal)) (u u' : EntryVal),
        dictGet (dictInsert d (gps_sub_key t) u) (resolve_main t) =
            dictGet d (resolve_main t)
          ∧ dictGet (dictInsert d (resolve_main t) u') (gps_sub_key t) =
            dictGet d (gps_sub_key t)) := by
  have hne : resolve_main t ≠ gps_sub_key t := by
    intro hc
    unfold gps_sub_key at hc
    exact resolve_main_ne_gps_prefixed t _ hc
  refine ⟨hne, ⟨keyStr (resolve_gps t), rfl⟩, resolve_main_ne_gps_prefixed t, ?_, ?_, ?_⟩
  · exact readable_contains_of_mem_processed ed (t, v) [(resolve_main t, v)]
      (resolve_main t) v hmain
      (processEntry_not_gpsinfo t v (resolve_main_ne_GPSInfo t ht)) (by simp)
  · exact readable_contains_of_mem_processed ed (34853, EntryVal.gpsDict g)
      (g.map (fun gv => (gps_sub_key gv.1, EntryVal.scalar gv.2)))
      (gps_sub_key t) (EntryVal.scalar w) hgps (processEntry_gpsinfo g)
      (List.mem_map_of_mem _ hsub)
  · intro d u u'
    exact ⟨dictGet_dictInsert_ne d (resolve_main t) (gps_sub_key t) u hne,
      dictGet_dictInsert_ne d (gps_sub_key t) (resolve_main t) u' (Ne.symm hne)⟩

/-- Witness for C7: in a document whose main IFD and GPS sub-IFD both
define tag ID 1, the readable projection contains both the main key and
the `"GPS "`-prefixed key, and the two keys differ. -/
theorem gps_namespace_disjoint_witness :
    resolve_main 1 ≠ gps_sub_key 1
    ∧ containsKeyE (get_readable_exif [(1, EntryVal.scalar (PyVal.int 5)),
        (34853, EntryVal.gpsDict [(1, PyVal.str "N".toList)])]) (resolve_main 1) = true
    ∧ containsKeyE (get_readable_exif [(1, EntryVal.scalar (PyVal.int 5)),
        (34853, EntryVal.gpsDict [(1, PyVal.str "N".toList)])]) (gps_sub_key 1) = true := by
  obtain ⟨h1, h2, h3, h4, h5, h6⟩ := gps_namespace_disjoint
    [(1, EntryVal.scalar (PyVal.int 5)), (34853, EntryVal.gpsDict [(1, PyVal.str "N".toList)])]
    1 (EntryVal.scalar (PyVal.int 5)) [(1, PyVal.str "N".toList)] (PyVal.str "N".toList)
    (by decide) (by simp) (by simp) (by simp)
  exact ⟨h1, h4, h5⟩

/-- C9: tag-name resolution is total for both tables — a known ID
resolves to the table's name, an unknown ID falls back to the raw
numeric ID itself instead of failing. -/
theorem tag_resolution_total (tid : Nat) :
    ((∃ n, TAGS_lookup tid = some n ∧ resolve_main tid = .name n)
      ∨ (TAGS_lookup tid = none ∧ resolve_main tid = .raw tid))
    ∧ ((∃ n, GPSTAGS_lookup tid = some n ∧ resolve_gps tid = .name n)
      ∨ (GPSTAGS_lookup tid = none ∧ resolve_gps tid = .raw tid)) := by
  constructor
  · cases h : TAGS_lookup tid with
    | some n => exact Or.inl ⟨n, rfl, by rw [resolve_main, h]⟩
    | none => exact Or.inr ⟨rfl, by rw [resolve_main, h]⟩
  · cases h : GPSTAGS_lookup tid with
    | some n => exact Or.inl ⟨n, rfl, by rw [resolve_gps, h]⟩
    | none => exact Or.inr ⟨rfl, by rw [resolve_gps, h]⟩

/-! ### The comparison view -/

end MetaScrubber
